import Mathlib

/-!
Verification development for the porydex extraction engine.

This file gives a shallow embedding of the shared extraction engine of the
porydex repository, centered on src/porydex/parse/init and
src/porydex/parse/form_change_tables.py, and proves properties of the
embedded operations.  Expression nodes produced by the external C parser
are modelled as an inductive type; Python exceptions are modelled with an
Except monad; the external preprocessor toolchain and the on-disk pickle
cache are modelled as an oracle function and an association list.
-/

namespace Porydex

/-- Expression nodes of the pycparser AST, restricted to the constructors the
extraction engine dispatches on.  Field names follow the pycparser classes:
Constant carries the raw token in value, ID carries the identifier name,
InitList carries its element expressions. -/
inductive CExpr where
  | Constant (value : String)
  | UnaryOp (op : String) (expr : CExpr)
  | BinaryOp (op : String) (left : CExpr) (right : CExpr)
  | TernaryOp (cond : CExpr) (iftrue : CExpr) (iffalse : CExpr)
  | ID (name : String)
  | InitList (exprs : List CExpr)

/-- Python exceptions that the embedded engine can raise. -/
inductive PyErr where
  | valueError (msg : String)
  | keyError (key : String)
  | attributeError (attr : String)
  | indexError
  | typeError
deriving DecidableEq

/-- Reading the value attribute of a node: only Constant nodes carry one;
on every other node Python raises AttributeError. -/
def getValue : CExpr → Except PyErr String
  | .Constant v => .ok v
  | _ => .error (.attributeError "value")

/-- Reading the name attribute of a node: only ID nodes carry one. -/
def getName : CExpr → Except PyErr String
  | .ID n => .ok n
  | _ => .error (.attributeError "name")

/-- Whether a node is an ID node, as tested by isinstance(expr, ID). -/
def isID : CExpr → Bool
  | .ID _ => true
  | _ => false

/-- Decimal digit value of a character, if any. -/
def digitVal10 (c : Char) : Option Nat :=
  if c.toNat ≥ 48 && c.toNat ≤ 57 then some (c.toNat - 48) else none

/-- Hexadecimal digit value of a character, if any. -/
def digitVal16 (c : Char) : Option Nat :=
  if c.toNat ≥ 48 && c.toNat ≤ 57 then some (c.toNat - 48)
  else if c.toNat ≥ 97 && c.toNat ≤ 102 then some (c.toNat - 87)
  else if c.toNat ≥ 65 && c.toNat ≤ 70 then some (c.toNat - 55)
  else none

/-- Accumulate digit values in the given base; fail on a non-digit. -/
def parseDigitsAux (f : Char → Option Nat) (base : Nat) : List Char → Nat → Option Nat
  | [], acc => some acc
  | c :: cs, acc =>
    match f c with
    | some d => parseDigitsAux f base cs (base * acc + d)
    | none => none

/-- Parse a nonempty digit string in the given base. -/
def parseDigits (f : Char → Option Nat) (base : Nat) (cs : List Char) : Option Nat :=
  match cs with
  | [] => none
  | _ => parseDigitsAux f base cs 0

/-- Strip one optional leading sign, returning whether it was negative. -/
def splitSign : List Char → Bool × List Char
  | '-' :: cs => (true, cs)
  | '+' :: cs => (false, cs)
  | cs => (false, cs)

/-- Apply a sign flag to a magnitude. -/
def applySign (neg : Bool) (n : Nat) : Int :=
  if neg then -(n : Int) else (n : Int)

/-- Model of the Python builtin int applied to a token string in base 10:
an optional sign followed by at least one decimal digit. -/
def pyIntBase10 (s : String) : Option Int :=
  let p := splitSign s.toList
  (parseDigits digitVal10 10 p.2).map (applySign p.1)

/-- Strip an optional 0x or 0X marker, as int with base 16 accepts. -/
def stripHexMark : List Char → List Char
  | '0' :: 'x' :: cs => cs
  | '0' :: 'X' :: cs => cs
  | cs => cs

/-- Model of the Python builtin int applied to a token string in base 16:
an optional sign, an optional 0x marker, then at least one hex digit. -/
def pyIntBase16 (s : String) : Option Int :=
  let p := splitSign s.toList
  (parseDigits digitVal16 16 (stripHexMark p.2)).map (applySign p.1)

/-- Mapping of evolution method identifier names to their numeric values,
transcribed from EVO_METHOD_MAPPING in src/porydex/parse/init. -/
def EVO_METHOD_MAPPING : List (String × Int) :=
  [("EVO_NONE", 0),
   ("EVO_FRIENDSHIP", 1),
   ("EVO_FRIENDSHIP_DAY", 2),
   ("EVO_FRIENDSHIP_NIGHT", 3),
   ("EVO_LEVEL", 4),
   ("EVO_TRADE", 5),
   ("EVO_TRADE_ITEM", 6),
   ("EVO_ITEM", 7),
   ("EVO_LEVEL_ATK_GT_DEF", 8),
   ("EVO_LEVEL_ATK_EQ_DEF", 9),
   ("EVO_LEVEL_ATK_LT_DEF", 10),
   ("EVO_LEVEL_SILCOON", 11),
   ("EVO_LEVEL_CASCOON", 12),
   ("EVO_LEVEL_NINJASK", 13),
   ("EVO_LEVEL_SHEDINJA", 14),
   ("EVO_BEAUTY", 15),
   ("EVO_LEVEL_FEMALE", 16),
   ("EVO_LEVEL_MALE", 17),
   ("EVO_LEVEL_NIGHT", 18),
   ("EVO_LEVEL_DAY", 19),
   ("EVO_LEVEL_DUSK", 20),
   ("EVO_ITEM_HOLD_DAY", 21),
   ("EVO_ITEM_HOLD_NIGHT", 22),
   ("EVO_MOVE", 23),
   ("EVO_FRIENDSHIP_MOVE_TYPE", 24),
   ("EVO_MAPSEC", 25),
   ("EVO_ITEM_MALE", 26),
   ("EVO_ITEM_FEMALE", 27),
   ("EVO_LEVEL_RAIN", 28),
   ("EVO_SPECIFIC_MON_IN_PARTY", 29),
   ("EVO_LEVEL_DARK_TYPE_MON_IN_PARTY", 30),
   ("EVO_TRADE_SPECIFIC_MON", 31),
   ("EVO_SPECIFIC_MAP", 32),
   ("EVO_LEVEL_NATURE_AMPED", 33),
   ("EVO_LEVEL_NATURE_LOW_KEY", 34),
   ("EVO_CRITICAL_HITS", 35),
   ("EVO_SCRIPT_TRIGGER_DMG", 36),
   ("EVO_DARK_SCROLL", 37),
   ("EVO_WATER_SCROLL", 38),
   ("EVO_ITEM_NIGHT", 39),
   ("EVO_ITEM_DAY", 40),
   ("EVO_ITEM_HOLD", 41),
   ("EVO_LEVEL_FOG", 42),
   ("EVO_MOVE_TWO_SEGMENT", 43),
   ("EVO_MOVE_THREE_SEGMENT", 44),
   ("EVO_LEVEL_FAMILY_OF_THREE", 45),
   ("EVO_LEVEL_FAMILY_OF_FOUR", 46),
   ("EVO_USE_MOVE_TWENTY_TIMES", 47),
   ("EVO_RECOIL_DAMAGE_MALE", 48),
   ("EVO_RECOIL_DAMAGE_FEMALE", 49),
   ("EVO_ITEM_COUNT_999", 50),
   ("EVO_DEFEAT_THREE_WITH_ITEM", 51),
   ("EVO_OVERWORLD_STEPS", 52)]

/-- Modelled from the spec: BINARY_BOOL_OPS is defined in porydex.common,
which is absent from the provided sources.  Per spec section 4.3 it is a
fixed table of the relational and boolean operators applied to the two
recursively evaluated integer operands, with the boolean result coerced to
0 or 1 by the caller.  This is the integer-operand view of the table. -/
def BINARY_BOOL_OPS_int (op : String) : Option (Int → Int → Bool) :=
  if op = "==" then some (fun a b => a == b)
  else if op = "!=" then some (fun a b => a != b)
  else if op = "<" then some (fun a b => decide (a < b))
  else if op = "<=" then some (fun a b => decide (a ≤ b))
  else if op = ">" then some (fun a b => decide (a > b))
  else if op = ">=" then some (fun a b => decide (a ≥ b))
  else if op = "&&" then some (fun a b => a != 0 && b != 0)
  else if op = "||" then some (fun a b => a != 0 || b != 0)
  else none

/-- Modelled from the spec: the same fixed operator table, as applied by
process_ternary directly to the raw value token strings of the condition
operands (relational operators compare strings lexicographically in Python;
the boolean operators test truthiness, which for strings is nonemptiness). -/
def BINARY_BOOL_OPS_str (op : String) : Option (String → String → Bool) :=
  if op = "==" then some (fun a b => a == b)
  else if op = "!=" then some (fun a b => a != b)
  else if op = "<" then some (fun a b => decide (a < b))
  else if op = "<=" then some (fun a b => decide (a ≤ b))
  else if op = ">" then some (fun a b => decide (b < a))
  else if op = ">=" then some (fun a b => decide (b ≤ a))
  else if op = "&&" then some (fun a b => a != "" && b != "")
  else if op = "||" then some (fun a b => a != "" || b != "")
  else none

/-- Embedding of process_ternary: reject a condition with an ID node on
either side, then compare the raw value tokens of the condition operands
with the condition operator and return the selected branch node.  Reading
cond, left or right off a node that lacks the attribute raises
AttributeError, and an operator missing from the table raises KeyError. -/
def process_ternary : CExpr → Except PyErr CExpr
  | .TernaryOp cond t f =>
    match cond with
    | .BinaryOp op l r =>
      if isID l then .error (.valueError "cannot process left-side ID value in ternary")
      else if isID r then .error (.valueError "cannot process right-side ID value in ternary")
      else
        match BINARY_BOOL_OPS_str op with
        | none => .error (.keyError op)
        | some opf => do
          let lv ← getValue l
          let rv ← getValue r
          pure (if opf lv rv then t else f)
    | _ => .error (.attributeError "left")
  | _ => .error (.attributeError "cond")

/-- Embedding of eval_binary_operand: BinaryOp recurses through the
process_binary computation with the boolean coerced by int (the source
states this as a mutual recursion with process_binary; the process_binary
body over the two operands is written inline here so the recursion is
structural, and process_binary below is definitionally the same
computation); TernaryOp resolves the branch and parses its value token in
base 10 only; ID falls back to the EVO method mapping with default 0; any
other node has its value token parsed in base 10 with no hexadecimal
fallback. -/
def eval_binary_operand : CExpr → Except PyErr Int
  | .BinaryOp op l r => do
    let a ← eval_binary_operand l
    let b ← eval_binary_operand r
    match BINARY_BOOL_OPS_int op with
    | some opf => pure (if opf a b then 1 else 0)
    | none => .error (.keyError op)
  | .TernaryOp c t f => do
    let branch ← process_ternary (.TernaryOp c t f)
    let v ← getValue branch
    match pyIntBase10 v with
    | some n => pure n
    | none => .error (.valueError v)
  | .ID name =>
    match EVO_METHOD_MAPPING.lookup name with
    | some v => pure v
    | none => pure 0
  | e => do
    let v ← getValue e
    match pyIntBase10 v with
    | some n => pure n
    | none => .error (.valueError v)

/-- Embedding of process_binary: evaluate the left operand, then the right,
then look the operator up in the fixed table and apply it. -/
def process_binary : CExpr → Except PyErr Bool
  | .BinaryOp op l r => do
    let a ← eval_binary_operand l
    let b ← eval_binary_operand r
    match BINARY_BOOL_OPS_int op with
    | some opf => pure (opf a b)
    | none => .error (.keyError op)
  | _ => .error (.attributeError "left")

/-- The mutual-recursion equation of the source holds of the restructured
pair: on a BinaryOp node, eval_binary_operand is the int coercion of
process_binary. -/
theorem eval_binary_operand_eq_process_binary (op : String) (l r : CExpr) :
    eval_binary_operand (.BinaryOp op l r) =
      (process_binary (.BinaryOp op l r)).map (fun b => if b then (1 : Int) else 0) := by
  simp only [eval_binary_operand, process_binary]
  cases eval_binary_operand l with
  | error e => rfl
  | ok a =>
    cases eval_binary_operand r with
    | error e => rfl
    | ok b =>
      cases BINARY_BOOL_OPS_int op <;> rfl

/-- Embedding of extract_int: TernaryOp resolves a branch and parses its
value token in base 10; UnaryOp supports only the minus operator and
negates the recursive result; BinaryOp coerces the relational result to 0
or 1; ID consults the EVO method mapping with default 0; any other node
has its value token parsed in base 10 and, on failure, re-parsed in base
16, with a ValueError if that fails as well. -/
def extract_int : CExpr → Except PyErr Int
  | .TernaryOp c t f => do
    let branch ← process_ternary (.TernaryOp c t f)
    let v ← getValue branch
    match pyIntBase10 v with
    | some n => pure n
    | none => .error (.valueError v)
  | .UnaryOp op e =>
    if op ≠ "-" then .error (.valueError ("unrecognized unary operator: " ++ op))
    else do
      let v ← extract_int e
      pure (-1 * v)
  | .BinaryOp op l r => do
    let b ← process_binary (.BinaryOp op l r)
    pure (if b then 1 else 0)
  | .ID name =>
    match EVO_METHOD_MAPPING.lookup name with
    | some v => pure v
    | none => pure 0
  | e => do
    let v ← getValue e
    match pyIntBase10 v with
    | some n => pure n
    | none =>
      match pyIntBase16 v with
      | some n => pure n
      | none => .error (.valueError v)

/-- Embedding of extract_id: TernaryOp resolves a branch and reads its name
attribute; BinaryOp joins the operand names with the operator string; any
other node has its name attribute read directly. -/
def extract_id : CExpr → Except PyErr String
  | .TernaryOp c t f => do
    let branch ← process_ternary (.TernaryOp c t f)
    getName branch
  | .BinaryOp op l r => do
    let ln ← getName l
    let rn ← getName r
    pure (ln ++ op ++ rn)
  | e => getName e

/-- Compiled regular expression pattern, abstracted to its match behavior:
matchAt returns none when the pattern does not match at the start of the
string, and the list of captured groups (group 1 onward) when it does.
The Python re engine is standard library code, not repository code, so it
is embedded by this interface; concrete pattern shapes used by the engine
are given below. -/
structure RePattern where
  matchAt : String → Option (List String)

/-- Character-list test that the first list is an initial segment of the
second. -/
def isPreList : List Char → List Char → Bool
  | [], _ => true
  | _ :: _, [] => false
  | c :: cs, d :: ds => c == d && isPreList cs ds

/-- Test that one string starts with another, over the character lists. -/
def strStarts (pre s : String) : Bool :=
  isPreList pre.toList s.toList

/-- A pattern that is a plain literal string with no regex metacharacters:
it matches exactly when it is an initial segment of the value, and it
contains no capture group. -/
def reLiteral (lit : String) : RePattern :=
  ⟨fun v => if strStarts lit v then some [] else none⟩

/-- A pattern of the shape used to strip constant-name markers: a literal
followed by one parenthesized group capturing the whole nonempty rest of
the value. -/
def reCapRest (lit : String) : RePattern :=
  ⟨fun v =>
    if strStarts lit v && v.toList.length > lit.toList.length then
      some [String.mk (v.toList.drop lit.toList.length)]
    else none⟩

/-- Embedding of extract_prefixed: if the pattern matches at the start of
the value, apply the transform to capture group 1 of the match, which
raises IndexError when the pattern has no capture group; otherwise return
the value unchanged. -/
def extract_prefixed (pat : RePattern) (val : String)
    (mod_if_match : String → String) : Except PyErr String :=
  match pat.matchAt val with
  | some groups =>
    match groups[0]? with
    | some g => .ok (mod_if_match g)
    | none => .error .indexError
  | none => .ok val

/-- A file path, reduced to the directory part and the filename stem; the
pickle cache keys entries by the stem alone. -/
structure CFile where
  dir : String
  stem : String
deriving DecidableEq

/-- A top-level declaration as the engine consumes it: the optional symbol
name, whether the declared type node is an ArrayDecl, and the optional
initializer expression node. -/
structure CDecl where
  name : Option String
  typeIsArray : Bool
  init : Option CExpr

/-- Reading init.exprs off a declaration: the initializer must be present
and be an InitList node, otherwise Python raises AttributeError. -/
def getInitExprs : Option CExpr → Except PyErr (List CExpr)
  | some (.InitList es) => .ok es
  | _ => .error (.attributeError "exprs")

/-- The on-disk pickle cache, as an association list from filename stems to
declaration sequences. -/
abbrev Cache := List (String × List CDecl)

/-- Lookup in an association list keyed by strings. -/
def alookup {α : Type} : List (String × α) → String → Option α
  | [], _ => none
  | (k, v) :: rest, s => if k = s then some v else alookup rest s

/-- Store under a key in an association list, overwriting an existing entry
in place and appending otherwise. -/
def aput {α : Type} (c : List (String × α)) (s : String) (v : α) :
    List (String × α) :=
  if (alookup c s).isSome then
    c.map (fun p => if p.1 = s then (s, v) else p)
  else c ++ [(s, v)]

/-- Look a stem up in the cache; none models the cache file being absent. -/
def cacheGet (c : Cache) (stem : String) : Option (List CDecl) :=
  alookup c stem

/-- Store a sequence under a stem, overwriting an existing entry. -/
def cachePut (c : Cache) (stem : String) (v : List CDecl) : Cache :=
  aput c stem v

/-- The two argument compositions handed to the external toolchain: full
composes the libc flags, include directories, global preprocessor macros,
config includes and the caller extras; minimal composes the libc flags,
include directories, the baseline TRUE, FALSE and u16 defines, the
species_enabled include and the caller extras. -/
inductive PreprocMode where
  | full
  | minimal
deriving DecidableEq

/-- Modelled from the spec: the external preprocessor plus parser toolchain
of section 4.1 (parse_file with the composed cpp arguments, whose constant
parts live in porydex.common and porydex.config, absent from the provided
sources), abstracted to a deterministic oracle from the file, the argument
composition mode and the caller extra includes to the parsed declaration
sequence. -/
abbrev Toolchain := CFile → PreprocMode → List String → List CDecl

/-- Embedding of load_data: consult the pickle cache under the filename
stem; when the entry is absent or falsy (the empty sequence), invoke the
toolchain in full mode and dump the result under the stem.  The boolean
records whether the toolchain was invoked and the result dumped. -/
def load_data (tc : Toolchain) (cache : Cache) (fname : CFile)
    (extra_includes : List String) : List CDecl × Cache × Bool :=
  match cacheGet cache fname.stem with
  | some exts =>
    if exts.isEmpty then
      let exts2 := tc fname .full extra_includes
      (exts2, cachePut cache fname.stem exts2, true)
    else (exts, cache, false)
  | none =>
    let exts2 := tc fname .full extra_includes
    (exts2, cachePut cache fname.stem exts2, true)

/-- Embedding of load_table_set: with minimal_preprocess the toolchain runs
in minimal mode and the result is not dumped; otherwise the cache is
consulted.  In either case a falsy result (absent entry or empty sequence)
falls through to a full-mode parse whose result is dumped under the stem.
The boolean records whether a full-mode parse ran and was dumped. -/
def load_table_set (tc : Toolchain) (cache : Cache) (fname : CFile)
    (extra_includes : List String) (minimal_preprocess : Bool) :
    List CDecl × Cache × Bool :=
  let exts? : Option (List CDecl) :=
    if minimal_preprocess then some (tc fname .minimal extra_includes)
    else cacheGet cache fname.stem
  match exts? with
  | some exts =>
    if exts.isEmpty then
      let exts2 := tc fname .full extra_includes
      (exts2, cachePut cache fname.stem exts2, true)
    else (exts, cache, false)
  | none =>
    let exts2 := tc fname .full extra_includes
    (exts2, cachePut cache fname.stem exts2, true)

/-- Whether a declaration name is falsy in Python: absent or empty. -/
def nameFalsy : Option String → Bool
  | none => true
  | some s => s == ""

/-- Whether the backward scan of load_data_and_start breaks at this
declaration: its name is falsy, or the pattern does not match it. -/
def scanBreak (pat : String → Bool) (d : CDecl) : Bool :=
  if nameFalsy d.name then true
  else
    match d.name with
    | some s => !(pat s)
    | none => true

/-- The backward walk of load_data_and_start: i is the current negative
index, the list holds the declarations still to be examined, in the order
the walk visits them.  On a break the result is i plus one; if the walk
exhausts the list the result stays 0. -/
def scanGo (pat : String → Bool) : Int → List CDecl → Int
  | _, [] => 0
  | i, d :: rest => if scanBreak pat d then i + 1 else scanGo pat (i - 1) rest

/-- Embedding of the boundary computation in load_data_and_start: with no
pattern the start is 0; otherwise walk the negative indices -1 down to
-(length - 1), that is the declarations from the last one down to index 1,
and break at the first declaration whose name is falsy or fails the
pattern.  The pattern argument models the truthiness of
pattern.match(name). -/
def scanStart (pat? : Option (String → Bool)) (all_data : List CDecl) : Int :=
  match pat? with
  | none => 0
  | some pat => scanGo pat (-1) ((all_data.drop 1).reverse)

/-- Embedding of load_data_and_start: load the declaration sequence through
load_data, then compute the boundary index over it. -/
def load_data_and_start (tc : Toolchain) (cache : Cache) (fname : CFile)
    (pat? : Option (String → Bool)) (extra_includes : List String) :
    (List CDecl × Cache × Bool) × Int :=
  let r := load_data tc cache fname extra_includes
  (r, scanStart pat? r.1)

/-- A Python value that is either an int or a str, as produced by the
try-int-then-id extraction fallbacks in form_change_tables.py. -/
abbrev PyVal := Sum Int String

/-- Last index at which the needle list occurs inside the haystack list, if
any; used to model the greedy dot-plus group of the form change table name
pattern. -/
def lastOccAt (needle hay : List Char) : Option Nat :=
  match hay with
  | [] => if isPreList needle [] then some 0 else none
  | _ :: rest =>
    match lastOccAt needle rest with
    | some k => some (k + 1)
    | none => if isPreList needle hay then some 0 else none

/-- Embedding of re.match with the pattern s(.+)FormChangeTable: the name
must start with the letter s, followed by at least one character, followed
by the literal FormChangeTable; the greedy group captures everything up to
the last occurrence of the literal.  The match is anchored at the start
only, as re.match is. -/
def formChangeTableMatch (name : String) : Option String :=
  match name.toList with
  | 's' :: rest =>
    match lastOccAt "FormChangeTable".toList rest with
    | some k => if k ≥ 1 then some (String.mk (rest.take k)) else none
    | none => none
  | _ => none

/-- Method-field extraction in parse_form_change_table_decl: try
extract_int, and on any exception fall back to extract_id, whose own
exceptions propagate. -/
def tryIntThenId (e : CExpr) : Except PyErr PyVal :=
  match extract_int e with
  | .ok v => .ok (.inl v)
  | .error _ =>
    match extract_id e with
    | .ok s => .ok (.inr s)
    | .error err => .error err

/-- Target-field extraction in parse_form_change_table_decl: try
extract_int, then extract_id, then the literal UNKNOWN; every exception is
caught. -/
def tryTargetExtract (e : CExpr) : PyVal :=
  match extract_int e with
  | .ok v => .inl v
  | .error _ =>
    match extract_id e with
    | .ok s => .inr s
    | .error _ => .inr "UNKNOWN"

/-- Parameter extraction in parse_form_change_table_decl: for each
parameter expression try extract_int, fall back to extract_id, and skip
the parameter when both fail; bare except clauses catch everything. -/
def extract_params : List CExpr → List PyVal
  | [] => []
  | p :: rest =>
    match extract_int p with
    | .ok v => .inl v :: extract_params rest
    | .error _ =>
      match extract_id p with
      | .ok s => .inr s :: extract_params rest
      | .error _ => extract_params rest

/-- One parsed form change entry: the method value, the target species
value, and the optional first parameter. -/
structure FCEntry where
  method : PyVal
  target : PyVal
  param : Option PyVal
deriving DecidableEq

/-- The entry loop of parse_form_change_table_decl over the positionally
zipped initializer expressions: only the minimal-side expression is read;
an entry must be an InitList of at least two expressions, the method field
is extracted with the int-then-id fallback, the target field with the
fully guarded fallback, and a method equal to the int 0 terminates the
loop before the entry is recorded. -/
def fcLoop : List (CExpr × CExpr) → Except PyErr (List FCEntry)
  | [] => .ok []
  | (mExpr, _) :: rest =>
    match mExpr with
    | .InitList (e0 :: e1 :: params) => do
      let method ← tryIntThenId e0
      let target := tryTargetExtract e1
      if method = .inl 0 then pure []
      else do
        let ps := extract_params params
        let entries ← fcLoop rest
        pure ({ method := method, target := target, param := ps.head? } :: entries)
    | _ => fcLoop rest

/-- Embedding of parse_form_change_table_decl: the full-side declaration
name must match the form change table pattern (a ValueError otherwise, and
a TypeError when the name is absent, as re.match raises on None); then the
entry loop runs over the zip of the two initializer expression lists and
the captured table name is returned with the entries. -/
def parse_form_change_table_decl (minimal full : CDecl) :
    Except PyErr (String × List FCEntry) :=
  match full.name with
  | none => .error .typeError
  | some name =>
    match formChangeTableMatch name with
    | none =>
      .error (.valueError
        ("form change table symbol does not match expected name pattern: " ++ name))
    | some true_name => do
      let mExprs ← getInitExprs minimal.init
      let fExprs ← getInitExprs full.init
      let entries ← fcLoop (List.zip mExprs fExprs)
      pure (true_name, entries)

/-- Start-index computation of all_form_change_table_decls: scan the full
declarations from the front and break one past the first declaration whose
type is not an ArrayDecl; without a break the start stays 0. -/
def fctStartAux : Nat → List CDecl → Nat
  | _, [] => 0
  | i, d :: rest => if !d.typeIsArray then i + 1 else fctStartAux (i + 1) rest

/-- Insert with Python dict semantics: overwrite an existing key in place,
otherwise append. -/
def dictInsert (d : List (String × List FCEntry)) (k : String)
    (v : List FCEntry) : List (String × List FCEntry) :=
  aput d k v

/-- The pair loop of all_form_change_table_decls: parse each positionally
zipped pair of declarations, skip a pair on ValueError, and propagate any
other exception. -/
def fctGo : List (String × List FCEntry) → List (CDecl × CDecl) →
    Except PyErr (List (String × List FCEntry))
  | acc, [] => .ok acc
  | acc, (mEntry, fEntry) :: rest =>
    match parse_form_change_table_decl mEntry fEntry with
    | .ok r => fctGo (dictInsert acc r.1 r.2) rest
    | .error (.valueError _) => fctGo acc rest
    | .error e => .error e

/-- Embedding of all_form_change_table_decls: compute the start index over
the full declarations, zip the minimal declarations positionally against
the full declarations from the start index on — silently truncating to the
shorter of the two — and fold the pair loop over the zip. -/
def all_form_change_table_decls (minimal full : List CDecl) :
    Except PyErr (List (String × List FCEntry)) :=
  fctGo [] (List.zip minimal (full.drop (fctStartAux 0 full)))

/-! Concrete fixtures used by the claim theorems. -/

/-- A declaration named fooData, not matching the table-name predicates. -/
def dFooData : CDecl := ⟨some "fooData", true, none⟩

/-- A declaration named sBarTable. -/
def dBarTable : CDecl := ⟨some "sBarTable", true, none⟩

/-- A declaration named sBazTable. -/
def dBazTable : CDecl := ⟨some "sBazTable", true, none⟩

/-- A declaration with an absent name. -/
def dUnnamed : CDecl := ⟨none, true, none⟩

/-- The truthiness of matching a name against a pattern that matches
precisely the names starting with sBar or sBaz. -/
def patBarBaz : String → Bool := fun n => strStarts "sBar" n || strStarts "sBaz" n

/-- A source file fed to the boundary scanner fixtures. -/
def fScan : CFile := ⟨"src/data", "tables"⟩

/-- A toolchain whose parse yields the three boundary-scanner declarations. -/
def tcScan : Toolchain := fun _ _ _ => [dFooData, dBarTable, dBazTable]

/-- A source file with stem species_info. -/
def fStemA : CFile := ⟨"src/data", "species_info"⟩

/-- A different source file sharing the stem species_info. -/
def fStemB : CFile := ⟨"other/dir", "species_info"⟩

/-- A toolchain whose every parse yields the empty declaration sequence. -/
def tcEmptyOut : Toolchain := fun _ _ _ => []

/-- A toolchain whose every parse yields one declaration. -/
def tcOneDecl : Toolchain := fun _ _ _ => [dFooData]

/-- A toolchain whose minimal-mode parse yields the empty sequence and whose
full-mode parse yields one declaration. -/
def tcMinEmpty : Toolchain :=
  fun _ mode _ => match mode with | .minimal => [] | .full => [dFooData]

/-- A minimal-pass row declaration with an empty initializer list. -/
def mRow : CDecl := ⟨some "sMinimalRow", true, some (.InitList [])⟩

/-- A full-pass form change table declaration named sAFormChangeTable. -/
def fTblA : CDecl := ⟨some "sAFormChangeTable", true, some (.InitList [])⟩

/-- A full-pass form change table declaration named sBFormChangeTable. -/
def fTblB : CDecl := ⟨some "sBFormChangeTable", true, some (.InitList [])⟩

/-! Helper lemmas. -/

/-- Looking up the key just stored by aput yields the stored value. -/
theorem alookup_aput {α : Type} (c : List (String × α)) (s : String) (v : α) :
    alookup (aput c s v) s = some v := by
  induction c with
  | nil => simp [aput, alookup]
  | cons p rest ih =>
    obtain ⟨k, b⟩ := p
    by_cases hk : k = s
    · subst hk
      simp [aput, alookup]
    · have hh : alookup ((k, b) :: rest) s = alookup rest s := by
        simp [alookup, hk]
      by_cases hr : (alookup rest s).isSome
      · have hput : aput rest s v = rest.map (fun p => if p.1 = s then (s, v) else p) := by
          simp [aput, hr]
        simp only [aput, hh]
        rw [if_pos hr]
        have hhead : ((k, b) :: rest).map (fun p => if p.1 = s then (s, v) else p)
            = (k, b) :: rest.map (fun p => if p.1 = s then (s, v) else p) := by
          simp [hk]
        rw [hhead]
        simp only [alookup, hk, if_false]
        rw [← hput]
        exact ih
      · have hput : aput rest s v = rest ++ [(s, v)] := by
          simp [aput, hr]
        simp only [aput, hh]
        rw [if_neg hr]
        simp only [List.cons_append]
        simp only [alookup, hk, if_false]
        rw [← hput]
        exact ih

/-- The backward walk passes over a block of non-breaking declarations,
decrementing the index by the block length. -/
theorem scanGo_skips (pat : String → Bool) (l rest : List CDecl) (i : Int)
    (h : ∀ x ∈ l, scanBreak pat x = false) :
    scanGo pat i (l ++ rest) = scanGo pat (i - l.length) rest := by
  induction l generalizing i with
  | nil => simp [scanGo]
  | cons d ds ih =>
    have hd : scanBreak pat d = false := h d (by simp)
    have hds : ∀ x ∈ ds, scanBreak pat x = false := fun x hx => h x (by simp [hx])
    simp only [List.cons_append, scanGo, hd, Bool.false_eq_true, if_false]
    rw [show ds.append rest = ds ++ rest from rfl, ih (i - 1) hds]
    congr 1
    simp only [List.length_cons]
    push_cast
    ring

/-! Claim theorems. -/

/-- C1: for the declaration boundary scanner given a sequence of exactly
three declarations named fooData, sBarTable, sBazTable and a predicate
matching precisely the names starting with sBar or sBaz, the claim states
the returned boundary index is 1.  Evaluating the embedded
load_data_and_start at exactly this input returns 0, because the backward
walk over range(-1, -len, -1) stops before reaching index 0, so the
non-matching declaration fooData is never examined and no break fires.
The claimed behavior, stopping at the first breaking declaration and
returning one past it, would give 1. -/
theorem load_data_and_start_three_decls_returns_zero :
    (load_data_and_start tcScan [] fScan (some patBarBaz) []).2 = 0 ∧ (0 : Int) ≠ 1 :=
  ⟨rfl, by decide⟩

/-- C5: the claim states that a declaration with an absent name does not
stop the backward scan.  On the sequence fooData, an unnamed declaration,
sBazTable with the sBar-or-sBaz predicate, the claimed walk would pass over
the unnamed declaration, break at fooData and return 1; the embedded scan
instead breaks at the unnamed declaration and does not return 1 (it
returns -1, one past the breaking position in the negative indexing the
source uses). -/
theorem scanStart_absent_name_not_one :
    scanStart (some patBarBaz) [dFooData, dUnnamed, dBazTable] ≠ 1 := by
  decide

/-- C5 amended: in the backward walk of the boundary scanner a declaration
whose name is absent stops the scan just as a non-matching name does: for
any sequence with at least one declaration before the breaking one, if
every declaration after the breaking one (toward the end) has a present,
nonempty, matching name and the breaking declaration has an absent, empty
or non-matching name, the scan returns the index one past the breaking
declaration in the negative indexing of the source, namely minus the
length of the matching tail. -/
theorem scanStart_stops_at_first_breaking (pat : String → Bool) (p0 : CDecl)
    (pre suf : List CDecl) (d : CDecl)
    (hd : scanBreak pat d = true)
    (hsuf : ∀ x ∈ suf, scanBreak pat x = false) :
    scanStart (some pat) ((p0 :: pre) ++ d :: suf) = -(suf.length : Int) := by
  have hrev : (((p0 :: pre) ++ d :: suf).drop 1).reverse
      = suf.reverse ++ d :: pre.reverse := by
    simp [List.reverse_append]
  have hsufrev : ∀ x ∈ suf.reverse, scanBreak pat x = false := by
    intro x hx
    exact hsuf x (List.mem_reverse.mp hx)
  unfold scanStart
  rw [hrev]
  show scanGo pat (-1) (suf.reverse ++ d :: pre.reverse) = -(suf.length : Int)
  rw [scanGo_skips pat suf.reverse (d :: pre.reverse) (-1) hsufrev]
  simp only [scanGo, hd, if_true, List.length_reverse]
  ring

/-- C5 witness: the amended theorem applied to the concrete sequence
fooData, unnamed, sBazTable with the sBar-or-sBaz predicate: the scan
breaks at the unnamed declaration and returns -1. -/
theorem scanStart_stops_at_first_breaking_witness :
    scanStart (some patBarBaz) ((dFooData :: []) ++ dUnnamed :: [dBazTable])
      = -(([dBazTable] : List CDecl).length : Int) :=
  scanStart_stops_at_first_breaking patBarBaz dFooData [] [dBazTable] dUnnamed rfl
    (by decide)

/-- Looking up the stem just stored by cachePut yields the stored value. -/
theorem cacheGet_cachePut (c : Cache) (s : String) (v : List CDecl) :
    cacheGet (cachePut c s v) s = some v :=
  alookup_aput c s v

/-- C3 counterexample: the claim states that after a full-mode load of one
file stores its sequence under the stem, a load of any file with that stem
returns the stored sequence without invoking the toolchain.  With a
toolchain whose parse of the first file yields the empty sequence, the
stored entry is falsy, so the second load of a same-stem file invokes the
toolchain again: the invoked flag is not false. -/
theorem load_data_empty_entry_reinvokes :
    ¬ ((load_data tcEmptyOut (load_data tcEmptyOut [] fStemA []).2.1 fStemB []).2.2
        = false) := by
  decide

/-- C3 amended: after a full-mode load of one file stores a nonempty
declaration sequence under its stem, a subsequent load of any file sharing
that stem, with any extra includes, returns the stored sequence from the
cache, leaves the cache unchanged and does not invoke the toolchain.  The
nonemptiness proviso is forced by the falsy-check in the source, which
treats an empty cached sequence as absent and reparses. -/
theorem load_data_cache_hit_same_stem (tc : Toolchain) (cache : Cache)
    (f1 f2 : CFile) (extra1 extra2 : List String)
    (hmiss : cacheGet cache f1.stem = none)
    (hstem : f2.stem = f1.stem)
    (hne : tc f1 .full extra1 ≠ []) :
    load_data tc (load_data tc cache f1 extra1).2.1 f2 extra2 =
      ((load_data tc cache f1 extra1).1, (load_data tc cache f1 extra1).2.1, false) := by
  have h1 : load_data tc cache f1 extra1 =
      (tc f1 .full extra1, cachePut cache f1.stem (tc f1 .full extra1), true) := by
    unfold load_data
    rw [hmiss]
  have hne2 : (tc f1 .full extra1).isEmpty = false := by
    cases htc : tc f1 .full extra1 with
    | nil => exact absurd htc hne
    | cons a l => rfl
  rw [h1]
  simp only [load_data, hstem, cacheGet_cachePut, hne2, Bool.false_eq_true, if_false]

/-- C3 witness: the amended theorem applied to a toolchain producing one
declaration and two files sharing the stem species_info: the second load
returns the stored sequence with the cache unchanged and no invocation. -/
theorem load_data_cache_hit_same_stem_witness :
    load_data tcOneDecl (load_data tcOneDecl [] fStemA []).2.1 fStemB [] =
      ((load_data tcOneDecl [] fStemA []).1,
       (load_data tcOneDecl [] fStemA []).2.1, false) :=
  load_data_cache_hit_same_stem tcOneDecl [] fStemA fStemB [] [] rfl rfl
    (by simp [tcOneDecl])

/-- C6 counterexample: the claim states a minimal-resolution pass never
writes a cache entry for the stem.  With a toolchain whose minimal-mode
parse yields the empty sequence, load_table_set with minimal_preprocess
true falls through to a full-mode parse, dumps it, and the cache gains an
entry for the stem. -/
theorem load_table_set_minimal_empty_writes_cache :
    (load_table_set tcMinEmpty [] fStemA [] true).2.2 = true ∧
    cacheGet (load_table_set tcMinEmpty [] fStemA [] true).2.1 fStemA.stem
      = some [dFooData] :=
  ⟨rfl, rfl⟩

/-- C6 amended: a minimal-resolution pass whose parse yields a nonempty
sequence bypasses persistence entirely — the cache is unchanged and
nothing is dumped; and whenever load_table_set does dump, what it stores
under the stem is the full-mode parse result, so only full-resolution
output is ever cached.  The nonemptiness proviso is forced by the
falsy-check in the source, which sends an empty minimal parse through the
full-parse-and-dump path. -/
theorem load_table_set_minimal_bypasses_cache (tc : Toolchain) (cache : Cache)
    (f : CFile) (extra : List String) :
    (tc f .minimal extra ≠ [] →
      load_table_set tc cache f extra true = (tc f .minimal extra, cache, false))
    ∧ (∀ mp : Bool, (load_table_set tc cache f extra mp).2.2 = true →
        (load_table_set tc cache f extra mp).1 = tc f .full extra ∧
        (load_table_set tc cache f extra mp).2.1
          = cachePut cache f.stem (tc f .full extra)) := by
  constructor
  · intro hne
    have hne2 : (tc f .minimal extra).isEmpty = false := by
      cases htc : tc f .minimal extra with
      | nil => exact absurd htc hne
      | cons a l => rfl
    simp only [load_table_set, if_true, hne2, Bool.false_eq_true, if_false]
  · intro mp hflag
    cases mp with
    | true =>
      by_cases he : (tc f .minimal extra).isEmpty = true
      · constructor <;> simp [load_table_set, he]
      · have hff : (load_table_set tc cache f extra true).2.2 = false := by
          simp only [Bool.not_eq_true] at he
          simp [load_table_set, he]
        rw [hff] at hflag
        exact absurd hflag (by decide)
    | false =>
      cases hc : cacheGet cache f.stem with
      | none => constructor <;> simp [load_table_set, hc]
      | some exts =>
        by_cases he : exts.isEmpty = true
        · constructor <;> simp [load_table_set, hc, he]
        · have hff : (load_table_set tc cache f extra false).2.2 = false := by
            simp only [Bool.not_eq_true] at he
            simp [load_table_set, hc, he]
          rw [hff] at hflag
          exact absurd hflag (by decide)

/-- C6 witness: the amended theorem applied to a toolchain whose minimal
parse yields one declaration: the minimal pass returns it with the cache
unchanged and nothing dumped. -/
theorem load_table_set_minimal_bypasses_cache_witness :
    load_table_set tcOneDecl [] fStemA [] true
      = (tcOneDecl fStemA .minimal [], [], false) :=
  (load_table_set_minimal_bypasses_cache tcOneDecl [] fStemA []).1
    (by simp [tcOneDecl])

/-- C2: for a minimal pass of three declarations zipped against a full pass
of two form change table declarations, the claim states the dual-resolution
loader raises a length-mismatch error rather than returning two pairs.
Evaluating the embedded all_form_change_table_decls at exactly this input
returns normally with the two zipped tables and no error: the positional
zip silently truncates the minimal pass to the shorter length, which is
the behavior the spec itself flags as a bug to fix. -/
theorem all_form_change_tables_zip_truncates :
    all_form_change_table_decls [mRow, mRow, mRow] [fTblA, fTblB]
      = .ok [("A", []), ("B", [])] ∧
    (List.zip [mRow, mRow, mRow]
      ([fTblA, fTblB].drop (fctStartAux 0 [fTblA, fTblB]))).length = 2 :=
  ⟨rfl, rfl⟩

/-- C4: for every Identifier node, extract_int returns the fixed symbol
table value when the name is a known enumerator, and returns 0 without
raising when the name is absent from the table; in particular EVO_LEVEL
evaluates to its fixed mapped value 4 and UNKNOWN_X evaluates to 0. -/
theorem extract_int_identifier_lookup :
    (∀ name v, EVO_METHOD_MAPPING.lookup name = some v →
      extract_int (.ID name) = .ok v)
    ∧ (∀ name, EVO_METHOD_MAPPING.lookup name = none →
      extract_int (.ID name) = .ok 0)
    ∧ extract_int (.ID "EVO_LEVEL") = .ok 4
    ∧ extract_int (.ID "UNKNOWN_X") = .ok 0 := by
  refine ⟨?_, ?_, rfl, rfl⟩
  · intro name v h
    simp [extract_int, h]
    rfl
  · intro name h
    simp [extract_int, h]
    rfl

/-- C4 witness: the lookup clause of the identifier theorem applied to the
known enumerator EVO_TRADE with its fixed value 5. -/
theorem extract_int_identifier_lookup_witness :
    extract_int (.ID "EVO_TRADE") = .ok 5 :=
  extract_int_identifier_lookup.1 "EVO_TRADE" 5 rfl

/-- C7: for every UnaryOp node, extract_int supports only the minus
operator, returning the negation of the recursively evaluated operand, so
minus applied to the literal 5 evaluates to -5; every other unary
operator, such as plus, raises (a ValueError carrying the unrecognized
operator, the shape the spec names UnsupportedExpressionShape). -/
theorem extract_int_unary_minus_only :
    (∀ e, extract_int (.UnaryOp "-" e) = (extract_int e).map (fun v => -1 * v))
    ∧ (∀ op e, op ≠ "-" →
        extract_int (.UnaryOp op e)
          = .error (.valueError ("unrecognized unary operator: " ++ op)))
    ∧ extract_int (.UnaryOp "-" (.Constant "5")) = .ok (-5)
    ∧ extract_int (.UnaryOp "+" (.Constant "5"))
        = .error (.valueError "unrecognized unary operator: +") := by
  refine ⟨?_, ?_, rfl, rfl⟩
  · intro e
    rw [extract_int]
    rw [if_neg (by simp)]
    cases extract_int e <;> rfl
  · intro op e h
    rw [extract_int]
    rw [if_pos h]

/-- C7 witness: the error clause applied to the unary operator plus on a
concrete operand. -/
theorem extract_int_unary_minus_only_witness :
    extract_int (.UnaryOp "+" (.Constant "7"))
      = .error (.valueError "unrecognized unary operator: +") :=
  extract_int_unary_minus_only.2.1 "+" (.Constant "7") (by decide)

/-- C8: for every TernaryOp node whose condition has an Identifier on
either its left or its right side, extract_int raises (a ValueError, the
shape the spec names UnsupportedExpressionShape) rather than folding the
ternary. -/
theorem extract_int_ternary_id_condition (op : String) (l r t f : CExpr)
    (h : (∃ n, l = CExpr.ID n) ∨ (∃ n, r = CExpr.ID n)) :
    ∃ msg, extract_int (.TernaryOp (.BinaryOp op l r) t f)
      = .error (.valueError msg) := by
  have hid : isID l = true ∨ isID r = true := by
    rcases h with ⟨n, hn⟩ | ⟨n, hn⟩
    · exact Or.inl (by rw [hn]; rfl)
    · exact Or.inr (by rw [hn]; rfl)
  by_cases hl : isID l = true
  · refine ⟨"cannot process left-side ID value in ternary", ?_⟩
    have hp : process_ternary (.TernaryOp (.BinaryOp op l r) t f)
        = .error (.valueError "cannot process left-side ID value in ternary") := by
      simp [process_ternary, hl]
    rw [extract_int, hp]
    rfl
  · have hr : isID r = true := hid.resolve_left hl
    refine ⟨"cannot process right-side ID value in ternary", ?_⟩
    have hp : process_ternary (.TernaryOp (.BinaryOp op l r) t f)
        = .error (.valueError "cannot process right-side ID value in ternary") := by
      simp [process_ternary, hl, hr]
    rw [extract_int, hp]
    rfl

/-- C8 witness: the theorem applied to the spec example, a ternary whose
condition compares the identifier X against the literal 1. -/
theorem extract_int_ternary_id_condition_witness :
    ∃ msg, extract_int (.TernaryOp (.BinaryOp "==" (.ID "X") (.Constant "1"))
      (.Constant "2") (.Constant "3")) = .error (.valueError msg) :=
  extract_int_ternary_id_condition "==" (.ID "X") (.Constant "1")
    (.Constant "2") (.Constant "3") (Or.inl ⟨"X", rfl⟩)

/-- Unfolding of extract_int on a Constant node: parse the token in base
10 and fall back to base 16. -/
theorem extract_int_constant_eq (tok : String) :
    extract_int (.Constant tok)
      = (match pyIntBase10 tok with
         | some n => Except.ok n
         | none =>
           match pyIntBase16 tok with
           | some n => Except.ok n
           | none => Except.error (.valueError tok)) := rfl

/-- C9: for every Constant node whose token parses in base 10, extract_int
returns that base-10 value; when base-10 parsing fails the token is
re-parsed in base 16 (failing with a ValueError only if that fails too),
so the token 0x1F evaluates to 31. -/
theorem extract_int_integer_literal :
    (∀ tok v, pyIntBase10 tok = some v → extract_int (.Constant tok) = .ok v)
    ∧ (∀ tok, pyIntBase10 tok = none →
        extract_int (.Constant tok)
          = (match pyIntBase16 tok with
             | some v => Except.ok v
             | none => Except.error (.valueError tok)))
    ∧ extract_int (.Constant "0x1F") = .ok 31 := by
  refine ⟨?_, ?_, rfl⟩
  · intro tok v h
    rw [extract_int_constant_eq, h]
  · intro tok h
    rw [extract_int_constant_eq, h]

/-- C9 witness: the base-10 clause applied to the decimal token 123. -/
theorem extract_int_integer_literal_witness :
    extract_int (.Constant "123") = .ok 123 :=
  extract_int_integer_literal.1 "123" 123 rfl

/-- C10: extract_prefixed returns the value unchanged whenever the pattern
does not match at the start of the value; and on an input where a plain
string pattern with no parenthesized capture group matches, it raises
IndexError instead of returning, because the transform is applied to the
first capture group of the match. -/
theorem extract_prefixed_no_group_index_error :
    (∀ (p : RePattern) (val : String) (mod_if_match : String → String),
        p.matchAt val = none → extract_prefixed p val mod_if_match = .ok val)
    ∧ extract_prefixed (reLiteral "sBar") "sBarTable" (fun s => s)
        = .error .indexError := by
  refine ⟨?_, rfl⟩
  intro p val mod_if_match h
  simp [extract_prefixed, h]

/-- C10 witness: the identity-fallback clause applied to a literal pattern
that does not match the value. -/
theorem extract_prefixed_no_group_index_error_witness :
    extract_prefixed (reLiteral "sBar") "other" (fun s => s) = .ok "other" :=
  extract_prefixed_no_group_index_error.1 (reLiteral "sBar") "other" (fun s => s) rfl

end Porydex
